import Mathlib

/-!
Shallow embedding of `src/msm.py` (tocrar/MinecraftServerManager).

The module resolves a remote Minecraft version manifest into a table of
`MinecraftServer` objects, lazily fetches each version's detail document,
and downloads the server jar to a local folder.  Python values produced by
`json.load` are modelled by the inductive type `Json` (Python `None` is
`Json.null`), Python exceptions by `PyErr`, the HTTP transport by an oracle
`Transport` indexed by the number of fetches performed so far, and the
filesystem by an explicit `FS` record of directories and files.
-/

/-- JSON values as produced by Python's `json.load`; `null` doubles as the
Python `None` object (they are the same value at runtime). Object fields
model a parsed `dict`, so keys are unique. -/
inductive Json where
  | null
  | bool (b : Bool)
  | num (n : Int)
  | str (s : String)
  | arr (xs : List Json)
  | obj (fields : List (String × Json))
  deriving Repr, Inhabited

mutual

/-- Decidable equality on `Json` values (the derive handler does not support
the nested `List` occurrences, so it is spelled out). -/
def decEqJson : (a b : Json) → Decidable (a = b)
  | .null, .null => isTrue rfl
  | .bool a, .bool b =>
      if h : a = b then isTrue (by rw [h]) else isFalse (fun hh => h (by injection hh))
  | .num a, .num b =>
      if h : a = b then isTrue (by rw [h]) else isFalse (fun hh => h (by injection hh))
  | .str a, .str b =>
      if h : a = b then isTrue (by rw [h]) else isFalse (fun hh => h (by injection hh))
  | .arr xs, .arr ys =>
      match decEqJsonList xs ys with
      | isTrue h => isTrue (by rw [h])
      | isFalse h => isFalse (fun hh => h (by injection hh))
  | .obj xs, .obj ys =>
      match decEqJsonFields xs ys with
      | isTrue h => isTrue (by rw [h])
      | isFalse h => isFalse (fun hh => h (by injection hh))
  | .null, .bool _ | .null, .num _ | .null, .str _ | .null, .arr _ | .null, .obj _
  | .bool _, .null | .bool _, .num _ | .bool _, .str _ | .bool _, .arr _ | .bool _, .obj _
  | .num _, .null | .num _, .bool _ | .num _, .str _ | .num _, .arr _ | .num _, .obj _
  | .str _, .null | .str _, .bool _ | .str _, .num _ | .str _, .arr _ | .str _, .obj _
  | .arr _, .null | .arr _, .bool _ | .arr _, .num _ | .arr _, .str _ | .arr _, .obj _
  | .obj _, .null | .obj _, .bool _ | .obj _, .num _ | .obj _, .str _ | .obj _, .arr _ =>
      isFalse (fun h => Json.noConfusion h)

/-- Decidable equality on lists of `Json` values. -/
def decEqJsonList : (xs ys : List Json) → Decidable (xs = ys)
  | [], [] => isTrue rfl
  | [], _ :: _ => isFalse (fun h => List.noConfusion h)
  | _ :: _, [] => isFalse (fun h => List.noConfusion h)
  | x :: xs, y :: ys =>
      match decEqJson x y, decEqJsonList xs ys with
      | isTrue h1, isTrue h2 => isTrue (by rw [h1, h2])
      | isFalse h1, _ => isFalse (fun hh => h1 (by injection hh))
      | _, isFalse h2 => isFalse (fun hh => h2 (by injection hh))

/-- Decidable equality on parsed-dict field lists. -/
def decEqJsonFields : (xs ys : List (String × Json)) → Decidable (xs = ys)
  | [], [] => isTrue rfl
  | [], _ :: _ => isFalse (fun h => List.noConfusion h)
  | _ :: _, [] => isFalse (fun h => List.noConfusion h)
  | (k1, v1) :: xs, (k2, v2) :: ys =>
      if hk : k1 = k2 then
        match decEqJson v1 v2, decEqJsonFields xs ys with
        | isTrue h1, isTrue h2 => isTrue (by rw [hk, h1, h2])
        | isFalse h1, _ =>
            isFalse (fun hh => by
              injection hh with hp ht
              exact h1 (congrArg Prod.snd hp))
        | _, isFalse h2 => isFalse (fun hh => h2 (by injection hh))
      else
        isFalse (fun hh => by
          injection hh with hp ht
          exact hk (congrArg Prod.fst hp))

end

instance : DecidableEq Json := decEqJson

/-- Python exceptions that the code in `msm.py` can raise. `urlError` stands
for transport failures of `urllib.request.urlopen`, `jsonError` for
`json.JSONDecodeError`. -/
inductive PyErr where
  | keyError (k : String)
  | typeError
  | attributeError
  | urlError
  | jsonError
  | fileExistsError
  deriving DecidableEq, Repr

/-- Lookup of a key in a parsed-dict field list (first match; parsed dicts
have unique keys). -/
def jlook : List (String × Json) → String → Option Json
  | [], _ => none
  | (k, v) :: rest, key => if k = key then some v else jlook rest key

/-- Python `x.get(k, dflt)`: defined on `dict` only; on any non-dict value
(including `None`) attribute lookup of `get` raises `AttributeError`. -/
def pyGet (j : Json) (k : String) (dflt : Json) : Except PyErr Json :=
  match j with
  | .obj fields => .ok ((jlook fields k).getD dflt)
  | _ => .error .attributeError

/-- Python subscription `x[k]` with a string key: `KeyError` on a dict that
lacks the key, `TypeError` on any non-dict value. -/
def pyIndex (j : Json) (k : String) : Except PyErr Json :=
  match j with
  | .obj fields =>
      match jlook fields k with
      | some x => .ok x
      | none => .error (.keyError k)
  | _ => .error .typeError

/-- Python hashability of a JSON value: lists and dicts are unhashable and
raise `TypeError` when used as dict keys. -/
def hashableJson : Json → Bool
  | .arr _ => false
  | .obj _ => false
  | _ => true

/-- Python `iter(x)` collected to a list, as used by `for version in x`:
lists yield their elements, strings their characters, dicts their keys;
scalars raise `TypeError`. -/
def pyIter : Json → Except PyErr (List Json)
  | .arr xs => .ok xs
  | .str s => .ok (s.toList.map (fun c => .str c.toString))
  | .obj fields => .ok (fields.map (fun p => .str p.1))
  | _ => .error .typeError

mutual

/-- Python `repr()` of a JSON value (numbers are modelled as integers only,
which is all the manifest documents contain). -/
def pyRepr : Json → String
  | .null => "None"
  | .bool true => "True"
  | .bool false => "False"
  | .num n => toString n
  | .str s => "'" ++ s ++ "'"
  | .arr xs => "[" ++ pyReprList xs ++ "]"
  | .obj fs => "\x7b" ++ pyReprFields fs ++ "\x7d"

/-- Comma-separated `repr()`s of list elements. -/
def pyReprList : List Json → String
  | [] => ""
  | [x] => pyRepr x
  | x :: xs => pyRepr x ++ ", " ++ pyReprList xs

/-- Comma-separated `'key': repr(value)` renderings of dict items. -/
def pyReprFields : List (String × Json) → String
  | [] => ""
  | [(k, v)] => "'" ++ k ++ "': " ++ pyRepr v
  | (k, v) :: xs => "'" ++ k ++ "': " ++ pyRepr v ++ ", " ++ pyReprFields xs

end

/-- Python `str()` of a JSON value, as applied by an f-string such as
`f"minecraft_server.\x7bself.version\x7d.jar"`. -/
def pyStr (j : Json) : String :=
  match j with
  | .str s => s
  | _ => pyRepr j

/-- Split a character list at every `/`, accumulating the current segment
in reverse. -/
def splitSlash : List Char → List Char → List (List Char)
  | [], cur => [cur.reverse]
  | c :: rest, cur =>
      if c = '/' then cur.reverse :: splitSlash rest []
      else splitSlash rest (c :: cur)

/-- The parts of `pathlib.Path(s)` for a relative path string: split on the
separator, dropping empty and single-dot segments. -/
def pyPath (s : String) : List String :=
  ((splitSlash s.toList []).map (fun cs => String.mk cs)).filter
    (fun seg => seg != "" && seg != ".")

/-- Truthiness of a `pathlib.Path` object: the class defines neither
`__bool__` nor `__len__`, so every instance (including `Path("")`) is
truthy.  This is what makes the `or Path("server_versions")` fallback in
`MinecraftServer.__init__` unreachable for non-`None` arguments. -/
def pathTruthy : List String → Bool := fun _ => true

/-- State of a `MinecraftServer` object (`src/msm.py:81-97`).  `data` is the
`_data` detail cache; its `Json.null` value is the Python `None` that means
both "never fetched" and "a fetched JSON null document" — the source cannot
tell the two apart, which matters for the caching claims. -/
structure MinecraftServer where
  version : Json
  type : Json
  meta_url : Json
  data : Json
  server_folder : List String
  deriving DecidableEq, Repr

/-- `MinecraftServer.__init__` (`src/msm.py:84-89`): stores the fields and
evaluates `Path(path) or Path("server_versions")`.  `Path(None)` raises
`TypeError`; on any string the left operand is truthy, so the fallback is
dead code. -/
def MinecraftServer.init (version release_type meta_url : Json) (path : Option String) :
    Except PyErr MinecraftServer :=
  match path with
  | none => .error .typeError
  | some p =>
      let sf := pyPath p
      .ok ⟨version, release_type, meta_url, .null,
           if pathTruthy sf then sf else pyPath "server_versions"⟩

/-- `server_file_path` (`src/msm.py:94-97`):
`self.server_folder / f"minecraft_server.\x7bself.version\x7d.jar"`. -/
def MinecraftServer.server_file_path (s : MinecraftServer) : List String :=
  s.server_folder ++ ["minecraft_server." ++ pyStr s.version ++ ".jar"]

/-- Field extraction of `server_url` (`src/msm.py:104`):
`self._data.get("downloads", \x7b\x7d).get("server", \x7b\x7d).get("url", "")`. -/
def extract_server_url (d : Json) : Except PyErr Json := do
  let a ← pyGet d "downloads" (.obj [])
  let b ← pyGet a "server" (.obj [])
  pyGet b "url" (.str "")

/-- Field extraction of `server_file_size` (`src/msm.py:111`): note the
default for a missing `size` is the empty string, exactly as in the source. -/
def extract_server_file_size (d : Json) : Except PyErr Json := do
  let a ← pyGet d "downloads" (.obj [])
  let b ← pyGet a "server" (.obj [])
  pyGet b "size" (.str "")

/-- Field extraction of `client_file_size` (`src/msm.py:118`). -/
def extract_client_file_size (d : Json) : Except PyErr Json := do
  let a ← pyGet d "downloads" (.obj [])
  let b ← pyGet a "client" (.obj [])
  pyGet b "size" (.str "")

/-- Field extraction of `java_version` (`src/msm.py:125`):
`self._data.get("javaVersion", \x7b\x7d).get("majorVersion", -1)`. -/
def extract_java_version (d : Json) : Except PyErr Json := do
  let a ← pyGet d "javaVersion" (.obj [])
  pyGet a "majorVersion" (.num (-1))

/-- Field extraction of `minimum_launcher_version` (`src/msm.py:132`):
`self._data.get("minimumLauncherVersion", -1)`. -/
def extract_minimum_launcher_version (d : Json) : Except PyErr Json :=
  pyGet d "minimumLauncherVersion" (.num (-1))

/-- The HTTP transport for the detail document, as an oracle: `t n` is the
outcome of the `n`-th `urlopen(self.meta_url)` + `json.load` performed by
`_update_data` (`src/msm.py:134-137`), either the parsed document or the
exception (`URLError` / `JSONDecodeError`) the attempt raised. -/
def Transport : Type := Nat → Except PyErr Json

/-- Filesystem and network events, used to state ordering and frame
properties of `download_server`. -/
inductive Ev where
  | mkdir (p : List String)
  | fetchMeta
  | fetchArtifact (url : Json)
  | fwrite (p : List String)
  deriving DecidableEq, Repr

/-- Decidable equality for `Except` results. -/
instance {ε α : Type} [DecidableEq ε] [DecidableEq α] : DecidableEq (Except ε α)
  | .ok a, .ok b =>
      if h : a = b then isTrue (by rw [h]) else isFalse (fun hh => h (by injection hh))
  | .error a, .error b =>
      if h : a = b then isTrue (by rw [h]) else isFalse (fun hh => h (by injection hh))
  | .ok _, .error _ => isFalse (fun h => Except.noConfusion h)
  | .error _, .ok _ => isFalse (fun h => Except.noConfusion h)

/-- Result of running one property accessor: the returned value or raised
exception, the object state after the call, the total number of
`_update_data` fetches performed so far, and the emitted events. -/
structure AccR where
  res : Except PyErr Json
  st : MinecraftServer
  n : Nat
  evs : List Ev
  deriving DecidableEq, Repr

/-- The shared accessor pattern of `src/msm.py:100-132`:
`if self._data is None: self._update_data()` followed by a field
extraction from `self._data`.  A fetch stores whatever document the
transport yields into the `_data` cache (`src/msm.py:134-137`); on an
exception the assignment never runs and the cache is untouched. -/
def withData (extract : Json → Except PyErr Json) (t : Transport) (n : Nat)
    (s : MinecraftServer) : AccR :=
  match s.data with
  | .null =>
      match t n with
      | .ok d => ⟨extract d, ⟨s.version, s.type, s.meta_url, d, s.server_folder⟩, n + 1, [.fetchMeta]⟩
      | .error e => ⟨.error e, s, n + 1, [.fetchMeta]⟩
  | d => ⟨extract d, s, n, []⟩

/-- Property `server_url` (`src/msm.py:100-104`). -/
def MinecraftServer.server_url (t : Transport) (n : Nat) (s : MinecraftServer) : AccR :=
  withData extract_server_url t n s

/-- Property `server_file_size` (`src/msm.py:107-111`). -/
def MinecraftServer.server_file_size (t : Transport) (n : Nat) (s : MinecraftServer) : AccR :=
  withData extract_server_file_size t n s

/-- Property `client_file_size` (`src/msm.py:114-118`). -/
def MinecraftServer.client_file_size (t : Transport) (n : Nat) (s : MinecraftServer) : AccR :=
  withData extract_client_file_size t n s

/-- Property `java_version` (`src/msm.py:121-125`). -/
def MinecraftServer.java_version (t : Transport) (n : Nat) (s : MinecraftServer) : AccR :=
  withData extract_java_version t n s

/-- Property `minimum_launcher_version` (`src/msm.py:128-132`). -/
def MinecraftServer.minimum_launcher_version (t : Transport) (n : Nat) (s : MinecraftServer) : AccR :=
  withData extract_minimum_launcher_version t n s

/-- The spec's `detail()`: the guard-then-fetch pattern returning the cached
`_data` document itself (every accessor is this followed by a pure field
extraction). -/
def MinecraftServer.detail (t : Transport) (n : Nat) (s : MinecraftServer) : AccR :=
  withData (fun d => .ok d) t n s

/-- A call to `detail()` or to one of the accessors that force it. -/
inductive Call where
  | detail
  | server_url
  | server_file_size
  | client_file_size
  | java_version
  | minimum_launcher_version
  deriving DecidableEq, Repr

/-- The pure part of each call: what it computes from the cached document. -/
def pureCall : Call → Json → Except PyErr Json
  | .detail, d => .ok d
  | .server_url, d => extract_server_url d
  | .server_file_size, d => extract_server_file_size d
  | .client_file_size, d => extract_client_file_size d
  | .java_version, d => extract_java_version d
  | .minimum_launcher_version, d => extract_minimum_launcher_version d

/-- Dispatch one call on the object. -/
def callRun : Call → Transport → Nat → MinecraftServer → AccR
  | .detail, t, n, s => s.detail t n
  | .server_url, t, n, s => s.server_url t n
  | .server_file_size, t, n, s => s.server_file_size t n
  | .client_file_size, t, n, s => s.client_file_size t n
  | .java_version, t, n, s => s.java_version t n
  | .minimum_launcher_version, t, n, s => s.minimum_launcher_version t n

/-- Result of running a sequence of calls. -/
structure RunR where
  ress : List (Except PyErr Json)
  st : MinecraftServer
  n : Nat
  evs : List Ev
  deriving DecidableEq, Repr

/-- Run a sequence of accessor calls on one `MinecraftServer` instance,
threading the detail cache and the fetch counter. -/
def runCalls : List Call → Transport → Nat → MinecraftServer → RunR
  | [], _, n, s => ⟨[], s, n, []⟩
  | c :: cs, t, n, s =>
      let r := callRun c t n s
      let R := runCalls cs t r.n r.st
      ⟨r.res :: R.ress, R.st, R.n, r.evs ++ R.evs⟩

/-- The versions table built by `manifest_extract_meta`: a Python dict whose
keys are JSON values (the version ids and the two literal alias strings)
and whose values are `MinecraftServer` objects or `None`, in insertion
order with unique keys, as in CPython. -/
abbrev Table := List (Json × Option MinecraftServer)

/-- Key membership in the table. -/
def dmem : Table → Json → Bool
  | [], _ => false
  | p :: r, k => p.1 = k || dmem r k

/-- Lookup in the table: `none` when the key is absent. -/
def dfind : Table → Json → Option (Option MinecraftServer)
  | [], _ => none
  | p :: r, k => if p.1 = k then some p.2 else dfind r k

/-- Replace the value stored under an existing key, keeping its position. -/
def dreplace : Table → Json → Option MinecraftServer → Table
  | [], _, _ => []
  | p :: r, k, v => if p.1 = k then (p.1, v) :: dreplace r k v else p :: dreplace r k v

/-- Python dict assignment `d[k] = v`: replaces in place when the key is
already present, appends otherwise; an unhashable key raises `TypeError`. -/
def dinsert (T : Table) (k : Json) (v : Option MinecraftServer) : Except PyErr Table :=
  if hashableJson k then
    .ok (if dmem T k then dreplace T k v else T ++ [(k, v)])
  else .error .typeError

/-- Python `d.get(k, None)` on the table: `None` both for an absent key and
for a key stored with value `None`; an unhashable key raises `TypeError`. -/
def dgetD (T : Table) (k : Json) : Except PyErr (Option MinecraftServer) :=
  if hashableJson k then .ok ((dfind T k).getD none)
  else .error .typeError

/-- The loop of `manifest_extract_meta` (`src/msm.py:182-188`): for each
entry, subscript lookups of `id`, `type` and `url` (each a `KeyError` when
missing), construction of the `MinecraftServer`, and the dict assignment
`results[version["id"]] = ...`. -/
def build_entries (vs : List Json) (server_folder : Option String) (acc : Table) :
    Except PyErr Table :=
  match vs with
  | [] => .ok acc
  | v :: rest => do
      let i ← pyIndex v "id"
      let ty ← pyIndex v "type"
      let url ← pyIndex v "url"
      let srv ← MinecraftServer.init i ty url server_folder
      let acc' ← dinsert acc i (some srv)
      build_entries rest server_folder acc'

/-- `manifest_extract_meta` (`src/msm.py:179-192`): builds the id table from
`manifest.get("versions", [])`, then resolves the two alias keys from
`manifest.get("latest", \x7b\x7d)` — note that the `latest_snapshot` lookup
runs on the table that already contains the `latest_release` key. -/
def manifest_extract_meta (manifest : Json) (server_folder : Option String) :
    Except PyErr Table := do
  let versionsJ ← pyGet manifest "versions" (.arr [])
  let vs ← pyIter versionsJ
  let T ← build_entries vs server_folder []
  let latest ← pyGet manifest "latest" (.obj [])
  let releasePtr ← pyGet latest "release" .null
  let releaseVal ← dgetD T releasePtr
  let T1 ← dinsert T (.str "latest_release") releaseVal
  let snapshotPtr ← pyGet latest "snapshot" .null
  let snapshotVal ← dgetD T1 snapshotPtr
  dinsert T1 (.str "latest_snapshot") snapshotVal

/-- The local filesystem: existing directories and existing files (path and
contents), all paths as segment lists. -/
structure FS where
  dirs : List (List String)
  files : List (List String × List Nat)
  deriving DecidableEq, Repr

/-- Paths of the existing files. -/
def filePaths (fs : FS) : List (List String) := fs.files.map (fun p => p.1)

/-- Existence of a regular file at the path. -/
def fileExists (fs : FS) (p : List String) : Bool := p ∈ filePaths fs

/-- Existence of a directory at the path (`Path.is_dir`). -/
def dirExists (fs : FS) (p : List String) : Bool := p ∈ fs.dirs

/-- `Path.exists`: a file or a directory is at the path. -/
def pexists (fs : FS) (p : List String) : Bool := fileExists fs p || dirExists fs p

/-- The proper ancestors of a path, shortest first. -/
def parentsOf (p : List String) : List (List String) :=
  (List.range p.length).map (fun i => p.take i)

/-- `os.makedirs(path, exist_ok=True)`: creates the directory and all
missing ancestors; raises when the path or one of its ancestors exists as a
regular file (`exist_ok` only tolerates existing directories). -/
def makedirs (fs : FS) (p : List String) : Except PyErr FS :=
  if (parentsOf p ++ [p]).any (fun q => fileExists fs q) then .error .fileExistsError
  else .ok ⟨fs.dirs ++ (parentsOf p ++ [p]).filter (fun q => !dirExists fs q), fs.files⟩

/-- `check_and_create_folder` (`src/msm.py:26-33`): create the folder unless
it already exists as a directory; also returns the emitted events. -/
def check_and_create_folder (fs : FS) (path : List String) : (Except PyErr FS) × List Ev :=
  if pexists fs path && dirExists fs path then (.ok fs, [])
  else
    match makedirs fs path with
    | .ok fs1 => (.ok fs1, [.mkdir path])
    | .error e => (.error e, [])

/-- Filesystem sanity: ancestors of every directory and of every file are
directories, and no path is both a file and a directory. -/
def FS.wfB (fs : FS) : Bool :=
  fs.dirs.all (fun d => (parentsOf d).all (fun q => q ∈ fs.dirs)) &&
  (filePaths fs).all (fun f => (parentsOf f).all (fun q => q ∈ fs.dirs)) &&
  (filePaths fs).all (fun f => !(f ∈ fs.dirs))

/-- Write (or overwrite) a file. -/
def writeFile (fs : FS) (p : List String) (contents : List Nat) : FS :=
  ⟨fs.dirs, fs.files.filter (fun q => q.1 ≠ p) ++ [(p, contents)]⟩

/-- Result of `download_server`: outcome, final object state, fetch count,
final filesystem, and the emitted event trace. -/
structure DlResult where
  res : Except PyErr Unit
  st : MinecraftServer
  n : Nat
  fs : FS
  trace : List Ev
  deriving DecidableEq, Repr

/-- The part of `download_server` after the folder acquisition
(`src/msm.py:142-147`): skip everything when the jar already exists,
otherwise evaluate `self.server_url` (which may fetch the detail document)
and stream the artifact to `self.server_file_path`.  The artifact bytes are
supplied by the oracle `body`. -/
def download_rest (t : Transport) (body : Json → List Nat) (n : Nat)
    (s : MinecraftServer) (fs : FS) : DlResult :=
  if fileExists fs s.server_file_path then ⟨.ok (), s, n, fs, []⟩
  else
    match s.server_url t n with
    | ⟨.ok u, s1, n1, evs⟩ =>
        ⟨.ok (), s1, n1, writeFile fs s1.server_file_path (body u),
         evs ++ [.fetchArtifact u, .fwrite s1.server_file_path]⟩
    | ⟨.error e, s1, n1, evs⟩ => ⟨.error e, s1, n1, fs, evs⟩

/-- `download_server` (`src/msm.py:139-147`): folder acquisition first, then
the existence-guarded transfer. -/
def MinecraftServer.download_server (t : Transport) (body : Json → List Nat) (n : Nat)
    (s : MinecraftServer) (fs : FS) : DlResult :=
  match check_and_create_folder fs s.server_folder with
  | (.ok fs1, ev) =>
      let r := download_rest t body n s fs1
      ⟨r.res, r.st, r.n, r.fs, ev ++ r.trace⟩
  | (.error e, ev) => ⟨.error e, s, n, fs, ev⟩

/-- Whether a JSON value is a dict. -/
def isObjB : Json → Bool
  | .obj _ => true
  | _ => false

/-- Well-formedness of one `versions` entry: a dict carrying `id`, `type`
and `url`, with a string `id`. -/
def entryWFB (v : Json) : Bool :=
  match v with
  | .obj fields =>
      (match jlook fields "id" with
       | some (.str _) => true
       | _ => false) &&
      (jlook fields "type").isSome && (jlook fields "url").isSome
  | _ => false

/-- The `id` value of an entry (meaningful on well-formed entries). -/
def entryId : Json → Json
  | .obj fields => (jlook fields "id").getD .null
  | _ => .null

/-- The `type` value of an entry. -/
def entryType : Json → Json
  | .obj fields => (jlook fields "type").getD .null
  | _ => .null

/-- The `url` value of an entry. -/
def entryUrl : Json → Json
  | .obj fields => (jlook fields "url").getD .null
  | _ => .null

/-- The table row `manifest_extract_meta` builds from one well-formed entry. -/
def rowOf (f : String) (v : Json) : Json × Option MinecraftServer :=
  (entryId v, some ⟨entryId v, entryType v, entryUrl v, .null, pyPath f⟩)

/-- The list of entries the resolution loop iterates over: the value under
`versions` when it is a list, and the default empty list otherwise. -/
def versionsOf : Json → List Json
  | .obj fields =>
      match jlook fields "versions" with
      | some (.arr xs) => xs
      | _ => []
  | _ => []

/-- The `id` values of the manifest's entries. -/
def entryIds (m : Json) : List Json := (versionsOf m).map entryId

/-- The value of `manifest.get("latest", \x7b\x7d)`. -/
def latestVal : Json → Json
  | .obj fields => (jlook fields "latest").getD (.obj [])
  | _ => .obj []

/-- The release pointer `latest.get("release", None)`. -/
def relPtr (m : Json) : Json :=
  match latestVal m with
  | .obj lf => (jlook lf "release").getD .null
  | _ => .null

/-- The snapshot pointer `latest.get("snapshot", None)`. -/
def snapPtr (m : Json) : Json :=
  match latestVal m with
  | .obj lf => (jlook lf "snapshot").getD .null
  | _ => .null

/-- A latest-pointer field is absent, null, or a string. -/
def ptrOKB : Option Json → Bool
  | none => true
  | some .null => true
  | some (.str _) => true
  | _ => false

/-- Shape of the `latest` block of a root manifest: absent (the code then
uses the empty-dict default) or a dict whose pointers are strings. -/
def latestWFB (m : Json) : Bool :=
  match latestVal m with
  | .obj lf => ptrOKB (jlook lf "release") && ptrOKB (jlook lf "snapshot")
  | _ => false

/-- Pairwise distinctness of a key list. -/
def distinctKeysB : List Json → Bool
  | [] => true
  | x :: xs => !(decide (x ∈ xs)) && distinctKeysB xs

/-- Shape of the `versions` key: absent or a list. -/
def versionsShapeB : Json → Bool
  | .obj fields =>
      (match jlook fields "versions" with
       | none => true
       | some (.arr _) => true
       | _ => false)
  | _ => false

/-- Validity of a root manifest, as assumed by the resolution claims: a dict
whose `versions` value (when present) is a list of well-formed entries with
pairwise-distinct ids, and whose `latest` block has pointer shape. -/
def manifestWFB (m : Json) : Bool :=
  versionsShapeB m && (versionsOf m).all entryWFB &&
  distinctKeysB (entryIds m) && latestWFB m

/-- No entry id collides with one of the two literal alias keys. -/
def noAliasIdsB (m : Json) : Bool :=
  (entryIds m).all
    (fun i => !(decide (i = .str "latest_release")) && !(decide (i = .str "latest_snapshot")))

/-- An entry that is a dict missing at least one of the three required
fields. -/
def entryMissingB : Json → Bool
  | .obj fields =>
      (jlook fields "id").isNone || (jlook fields "type").isNone ||
      (jlook fields "url").isNone
  | _ => false

/-- The entry's id, when present, is a hashable value. -/
def idHashableB : Json → Bool
  | .obj fields =>
      (match jlook fields "id" with
       | some j => hashableJson j
       | none => true)
  | _ => true

/-- The manifest is a dict with a list under `versions`. -/
def versionsPresentB : Json → Bool
  | .obj fields =>
      (match jlook fields "versions" with
       | some (.arr _) => true
       | _ => false)
  | _ => false

/-- The manifest is a dict with no `versions` key at all. -/
def noVersionsB : Json → Bool
  | .obj fields => (jlook fields "versions").isNone
  | _ => false

/-! Fixtures: the concrete documents used by the examples, witnesses and
counterexamples. -/

/-- The spec's example detail document. -/
def detailDocEx : Json :=
  .obj [("downloads", .obj [("server",
           .obj [("url", .str "http://x/server.jar"), ("size", .num 12345)])]),
        ("javaVersion", .obj [("majorVersion", .num 17)])]

/-- A freshly constructed artifact (detail never fetched). -/
def sEx : MinecraftServer := ⟨.str "1.20.4", .str "release", .str "u", .null, ["sf"]⟩

/-- A transport whose every fetch succeeds with the example document. -/
def tEx : Transport := fun _ => .ok detailDocEx

/-- A transport whose every fetch succeeds with the JSON `null` document. -/
def tNullDoc : Transport := fun _ => .ok .null

/-- A transport whose first fetch fails and whose later fetches succeed. -/
def tFailThenOk : Transport := fun k => if k = 0 then .error .urlError else .ok detailDocEx

/-- The spec's example root manifest. -/
def manifestEx : Json :=
  .obj [("latest", .obj [("release", .str "1.20.4"), ("snapshot", .str "1.20.4")]),
        ("versions", .arr [.obj [("id", .str "1.20.4"), ("type", .str "release"),
                                 ("url", .str "http://x/1.20.4.json")]])]

/-- A well-formed one-entry manifest whose entry id is the literal alias key
`latest_release` (and no `latest` block). -/
def manifestAliasId : Json :=
  .obj [("versions", .arr [.obj [("id", .str "latest_release"), ("type", .str "release"),
                                 ("url", .str "u")]])]

/-- A well-formed manifest whose snapshot pointer is the literal string
`latest_release`, which is not among the entry ids. -/
def manifestSnapAlias : Json :=
  .obj [("latest", .obj [("release", .str "a"), ("snapshot", .str "latest_release")]),
        ("versions", .arr [.obj [("id", .str "a"), ("type", .str "release"),
                                 ("url", .str "u")]])]

/-- The artifact built for the single entry of `manifestSnapAlias`. -/
def srvA : MinecraftServer := ⟨.str "a", .str "release", .str "u", .null, pyPath "sf"⟩

/-- An artifact whose detail cache already holds the example document. -/
def sCached : MinecraftServer := ⟨.str "1.20.4", .str "release", .str "u", detailDocEx, ["sf"]⟩

/-- The table rows built from the manifest's entries. -/
def entryTable (m : Json) (f : String) : Table := (versionsOf m).map (rowOf f)

/-- The value stored under the `latest_release` alias key. -/
def relVal (m : Json) (f : String) : Option MinecraftServer :=
  (dfind (entryTable m f) (relPtr m)).getD none

/-- The table after the `latest_release` assignment. -/
def tableAfterRel (m : Json) (f : String) : Table :=
  entryTable m f ++ [(.str "latest_release", relVal m f)]

/-- The value stored under the `latest_snapshot` alias key — looked up in
the table that already contains the `latest_release` key. -/
def snapVal (m : Json) (f : String) : Option MinecraftServer :=
  (dfind (tableAfterRel m f) (snapPtr m)).getD none

/-- The table `manifest_extract_meta` returns on a valid manifest. -/
def fullTable (m : Json) (f : String) : Table :=
  tableAfterRel m f ++ [(.str "latest_snapshot", snapVal m f)]

/-- A manifest with a `latest` block but no `versions` key. -/
def manifestNoVersions : Json :=
  .obj [("latest", .obj [("release", .str "x")])]

/-- A manifest whose only entry lacks the `url` field. -/
def manifestMissingUrl : Json :=
  .obj [("versions", .arr [.obj [("id", .str "a"), ("type", .str "release")]])]

/-! Lemmas about the detail cache. -/

/-- When the cache is populated, every accessor is pure: no fetch, no state
change, the result extracted from the cached document. -/
theorem withData_cached (f : Json → Except PyErr Json) (t : Transport) (n : Nat)
    (s : MinecraftServer) (h : s.data ≠ .null) :
    withData f t n s = ⟨f s.data, s, n, []⟩ := by
  unfold withData
  cases hd : s.data <;> simp_all

/-- Each call dispatches to the shared guard-then-extract pattern. -/
theorem callRun_eq (c : Call) (t : Transport) (n : Nat) (s : MinecraftServer) :
    callRun c t n s = withData (pureCall c) t n s := by
  cases c <;> rfl

/-- A whole call sequence on a populated cache performs no fetch, leaves the
object unchanged, and returns pure extractions of the cached document. -/
theorem runCalls_cached (cs : List Call) (t : Transport) (n : Nat) (s : MinecraftServer)
    (h : s.data ≠ .null) :
    runCalls cs t n s = ⟨cs.map (fun c => pureCall c s.data), s, n, []⟩ := by
  induction cs generalizing n with
  | nil => rfl
  | cons c cs ih =>
      simp only [runCalls, callRun_eq, withData_cached _ _ _ _ h, ih]
      simp

/-- C3 (amended): on an unpopulated cache, when the first fetch succeeds
with a non-null document, exactly one fetch of `meta_url` happens across
the first call and any number of subsequent calls to `detail()` or to any
accessor that forces it; every later call returns the value cached by the
first fetch without re-fetching.  The non-null proviso is forced: the
source caches in `_data` with `None` as the "not fetched" sentinel, so a
fetched JSON `null` document is indistinguishable from an empty cache. -/
theorem claim_C3 (t : Transport) (n : Nat) (s : MinecraftServer) (d : Json)
    (c : Call) (cs : List Call)
    (h0 : s.data = .null) (ht : t n = .ok d) (hd : d ≠ .null) :
    runCalls (c :: cs) t n s =
      ⟨pureCall c d :: cs.map (fun c2 => pureCall c2 d),
       ⟨s.version, s.type, s.meta_url, d, s.server_folder⟩, n + 1, [.fetchMeta]⟩ := by
  have h1 : callRun c t n s =
      ⟨pureCall c d, ⟨s.version, s.type, s.meta_url, d, s.server_folder⟩, n + 1, [.fetchMeta]⟩ := by
    rw [callRun_eq]
    unfold withData
    rw [h0, ht]
  have h2 := runCalls_cached cs t (n + 1)
      ⟨s.version, s.type, s.meta_url, d, s.server_folder⟩ hd
  simp only [runCalls, h1, h2]
  simp

/-- C3 (witness): a freshly built artifact, a transport serving the example
document, and the call sequence `detail(); server_url`. -/
theorem claim_C3_witness :
    runCalls [.detail, .server_url] tEx 0 sEx =
      ⟨[.ok detailDocEx, extract_server_url detailDocEx],
       ⟨sEx.version, sEx.type, sEx.meta_url, detailDocEx, sEx.server_folder⟩,
       1, [.fetchMeta]⟩ := by
  simpa using claim_C3 tEx 0 sEx detailDocEx .detail [.server_url] rfl rfl (by decide)

/-- C3 (counterexample to the claim as stated): with a transport whose
fetches succeed with the JSON `null` document, the first `server_url` call's
fetch succeeds, yet the second call fetches again — two fetches, not one. -/
theorem claim_C3_cex :
    tNullDoc 0 = .ok .null ∧
    (runCalls [.server_url, .server_url] tNullDoc 0 sEx).n = 2 ∧
    (runCalls [.server_url, .server_url] tNullDoc 0 sEx).evs = [.fetchMeta, .fetchMeta] :=
  ⟨rfl, rfl, rfl⟩

/-- C4: a failed fetch (transport or parse error) leaves the artifact's
state — in particular the `_data` cache — unchanged, so the next `detail()`
call fetches again; when that retry succeeds, exactly the successful
document is returned and cached. -/
theorem claim_C4 (t : Transport) (n : Nat) (s : MinecraftServer) (e : PyErr) (d : Json)
    (h0 : s.data = .null) (h1 : t n = .error e) (h2 : t (n + 1) = .ok d) :
    s.detail t n = ⟨.error e, s, n + 1, [.fetchMeta]⟩ ∧
    s.detail t (n + 1) =
      ⟨.ok d, ⟨s.version, s.type, s.meta_url, d, s.server_folder⟩, n + 2, [.fetchMeta]⟩ := by
  constructor
  · unfold MinecraftServer.detail withData
    rw [h0, h1]
  · unfold MinecraftServer.detail withData
    rw [h0, h2]

/-- C4 (witness): first fetch raises `URLError`, second fetch succeeds with
the example document, starting from a freshly built artifact. -/
theorem claim_C4_witness :
    sEx.detail tFailThenOk 0 = ⟨.error .urlError, sEx, 1, [.fetchMeta]⟩ ∧
    sEx.detail tFailThenOk 1 =
      ⟨.ok detailDocEx,
       ⟨sEx.version, sEx.type, sEx.meta_url, detailDocEx, sEx.server_folder⟩,
       2, [.fetchMeta]⟩ := by
  simpa using claim_C4 tFailThenOk 0 sEx .urlError detailDocEx rfl rfl rfl


/-- C10: constructing a `MinecraftServer` with a `None` path raises
`TypeError` rather than falling back to the default folder
`server_versions`; for every non-`None` path the instance's server folder
is exactly `Path(path)` — the fallback after `or` is unreachable because a
`Path` object is always truthy. -/
theorem claim_C10 (v ty u : Json) (p : String) :
    MinecraftServer.init v ty u none = .error .typeError ∧
    MinecraftServer.init v ty u (some p) = .ok ⟨v, ty, u, .null, pyPath p⟩ := by
  constructor
  · rfl
  · simp [MinecraftServer.init, pathTruthy]

/-- C10 (witness): instantiated at the default constructor arguments and
the path `a/b`. -/
theorem claim_C10_witness :
    MinecraftServer.init .null .null .null none = .error .typeError ∧
    MinecraftServer.init .null .null .null (some "a/b") =
      .ok ⟨.null, .null, .null, .null, pyPath "a/b"⟩ :=
  claim_C10 .null .null .null "a/b"

/-- C7: on the spec's example detail document the accessors return the
documented values (`minLauncherVersion` falling back to `-1` for the absent
field) without fetching; and in general each accessor returns its
documented default — the empty string for URL and size, `-1` for the two
integer version fields — whenever the corresponding field is absent at any
level of the document, rather than failing. -/
theorem claim_C7 :
    (∀ (t : Transport) (n : Nat) (s : MinecraftServer), s.data = detailDocEx →
       s.server_url t n = ⟨.ok (.str "http://x/server.jar"), s, n, []⟩ ∧
       s.server_file_size t n = ⟨.ok (.num 12345), s, n, []⟩ ∧
       s.java_version t n = ⟨.ok (.num 17), s, n, []⟩ ∧
       s.minimum_launcher_version t n = ⟨.ok (.num (-1)), s, n, []⟩) ∧
    (∀ fields, jlook fields "downloads" = none →
       extract_server_url (.obj fields) = .ok (.str "") ∧
       extract_server_file_size (.obj fields) = .ok (.str "")) ∧
    (∀ fields g, jlook fields "downloads" = some (.obj g) → jlook g "server" = none →
       extract_server_url (.obj fields) = .ok (.str "") ∧
       extract_server_file_size (.obj fields) = .ok (.str "")) ∧
    (∀ fields g h2, jlook fields "downloads" = some (.obj g) →
       jlook g "server" = some (.obj h2) →
       (jlook h2 "url" = none → extract_server_url (.obj fields) = .ok (.str "")) ∧
       (jlook h2 "size" = none → extract_server_file_size (.obj fields) = .ok (.str ""))) ∧
    (∀ fields, jlook fields "javaVersion" = none →
       extract_java_version (.obj fields) = .ok (.num (-1))) ∧
    (∀ fields g, jlook fields "javaVersion" = some (.obj g) → jlook g "majorVersion" = none →
       extract_java_version (.obj fields) = .ok (.num (-1))) ∧
    (∀ fields, jlook fields "minimumLauncherVersion" = none →
       extract_minimum_launcher_version (.obj fields) = .ok (.num (-1))) := by
  refine ⟨?_, ?_, ?_, ?_, ?_, ?_, ?_⟩
  · intro t n s h
    have hne : s.data ≠ .null := by rw [h]; decide
    rw [MinecraftServer.server_url, MinecraftServer.server_file_size,
        MinecraftServer.java_version, MinecraftServer.minimum_launcher_version]
    rw [withData_cached _ _ _ _ hne, withData_cached _ _ _ _ hne,
        withData_cached _ _ _ _ hne, withData_cached _ _ _ _ hne, h]
    exact ⟨rfl, rfl, rfl, rfl⟩
  · intro fields h
    constructor <;>
      simp [extract_server_url, extract_server_file_size, pyGet, h, jlook,
            Except.bind, bind]
  · intro fields g h1 h2
    constructor <;>
      simp [extract_server_url, extract_server_file_size, pyGet, h1, h2, jlook,
            Except.bind, bind]
  · intro fields g h2 hd hs
    constructor <;> intro hf <;>
      simp [extract_server_url, extract_server_file_size, pyGet, hd, hs, hf,
            Except.bind, bind]
  · intro fields h
    simp [extract_java_version, pyGet, h, jlook, Except.bind, bind]
  · intro fields g h1 h2
    simp [extract_java_version, pyGet, h1, h2, Except.bind, bind]
  · intro fields h
    simp [extract_minimum_launcher_version, pyGet, h]

/-- C7 (witness): the accessor part at a cached artifact, and two of the
absent-field defaults at the empty document. -/
theorem claim_C7_witness :
    sCached.server_url tEx 0 = ⟨.ok (.str "http://x/server.jar"), sCached, 0, []⟩ ∧
    extract_java_version (.obj []) = .ok (.num (-1)) ∧
    extract_minimum_launcher_version (.obj []) = .ok (.num (-1)) :=
  ⟨(claim_C7.1 tEx 0 sCached rfl).1, claim_C7.2.2.2.2.1 [] rfl,
   claim_C7.2.2.2.2.2.2 [] rfl⟩

/-! Lemmas about the filesystem and `download_server`. -/

/-- An accessor never changes the server folder. -/
theorem withData_st_folder (f : Json → Except PyErr Json) (t : Transport) (n : Nat)
    (s : MinecraftServer) : (withData f t n s).st.server_folder = s.server_folder := by
  unfold withData
  cases s.data <;> simp <;> cases t n <;> simp

/-- An accessor never changes the version. -/
theorem withData_st_version (f : Json → Except PyErr Json) (t : Transport) (n : Nat)
    (s : MinecraftServer) : (withData f t n s).st.version = s.version := by
  unfold withData
  cases s.data <;> simp <;> cases t n <;> simp

/-- An accessor never changes the destination path. -/
theorem withData_st_path (f : Json → Except PyErr Json) (t : Transport) (n : Nat)
    (s : MinecraftServer) :
    (withData f t n s).st.server_file_path = s.server_file_path := by
  unfold MinecraftServer.server_file_path
  rw [withData_st_folder, withData_st_version]

/-- An accessor emits at most its one detail fetch, never a write. -/
theorem withData_evs (f : Json → Except PyErr Json) (t : Transport) (n : Nat)
    (s : MinecraftServer) :
    (withData f t n s).evs = [] ∨ (withData f t n s).evs = [.fetchMeta] := by
  unfold withData
  cases s.data <;> simp <;> cases t n <;> simp

/-- C5: when the destination file already exists, `download_server` touches
nothing: no detail fetch, no transfer, no filesystem change, and it returns
success. -/
theorem claim_C5 (t : Transport) (body : Json → List Nat) (n : Nat)
    (s : MinecraftServer) (fs : FS)
    (hwf : FS.wfB fs = true)
    (hex : fileExists fs s.server_file_path = true) :
    s.download_server t body n fs = ⟨.ok (), s, n, fs, []⟩ := by
  have hmem : s.server_file_path ∈ filePaths fs := by
    simpa [fileExists] using hex
  have hpar : s.server_folder ∈ parentsOf s.server_file_path := by
    unfold parentsOf
    refine List.mem_map.mpr ⟨s.server_folder.length, ?_, ?_⟩
    · simp [List.mem_range, MinecraftServer.server_file_path]
    · exact List.take_left _ _
  have hdirs : s.server_folder ∈ fs.dirs := by
    simp only [FS.wfB, Bool.and_eq_true, List.all_eq_true, decide_eq_true_eq] at hwf
    exact hwf.1.2 _ hmem _ hpar
  have hdir : dirExists fs s.server_folder = true := by
    simp [dirExists, hdirs]
  have hpe : pexists fs s.server_folder = true := by
    simp [pexists, hdir]
  unfold MinecraftServer.download_server check_and_create_folder
  rw [hpe, hdir]
  simp [download_rest, hex]

/-- C5 (witness): a filesystem already holding the jar for `sEx`. -/
theorem claim_C5_witness :
    sEx.download_server tEx (fun _ => []) 0
        ⟨[[], ["sf"]], [(["sf", "minecraft_server.1.20.4.jar"], [7])]⟩ =
      ⟨.ok (), sEx, 0, ⟨[[], ["sf"]], [(["sf", "minecraft_server.1.20.4.jar"], [7])]⟩, []⟩ :=
  claim_C5 tEx (fun _ => []) 0 sEx _ (by decide) (by decide)

/-- C6: for any destination folder whose path (and ancestors) is not taken
by a regular file, `download_server` first acquires the folder — after the
acquisition the folder and all its parent segments exist as directories —
and only then runs the phase containing the transfer, whose only write
event targets `server_file_path`. -/
theorem claim_C6 (t : Transport) (body : Json → List Nat) (n : Nat)
    (s : MinecraftServer) (fs : FS)
    (hwf : FS.wfB fs = true)
    (hnf : ∀ q ∈ parentsOf s.server_folder ++ [s.server_folder], fileExists fs q = false) :
    ∃ fs1 ev,
      check_and_create_folder fs s.server_folder = (.ok fs1, ev) ∧
      (∀ i ≤ s.server_folder.length, s.server_folder.take i ∈ fs1.dirs) ∧
      (∀ e ∈ ev, e = Ev.mkdir s.server_folder) ∧
      s.download_server t body n fs =
        ⟨(download_rest t body n s fs1).res, (download_rest t body n s fs1).st,
         (download_rest t body n s fs1).n, (download_rest t body n s fs1).fs,
         ev ++ (download_rest t body n s fs1).trace⟩ ∧
      (∀ e ∈ (download_rest t body n s fs1).trace, ∀ p, e = Ev.fwrite p →
         p = s.server_file_path) := by
  have hwrites : ∀ fs1, ∀ e ∈ (download_rest t body n s fs1).trace, ∀ p,
      e = Ev.fwrite p → p = s.server_file_path := by
    intro fs1 e he p hep
    unfold download_rest at he
    by_cases hx : fileExists fs1 s.server_file_path = true
    · simp [hx] at he
    · simp only [Bool.not_eq_true] at hx
      simp only [hx] at he
      rcases hacc : MinecraftServer.server_url t n s with ⟨res, s1, n1, evs⟩
      have hevs : evs = [] ∨ evs = [.fetchMeta] := by
        have := withData_evs extract_server_url t n s
        rw [MinecraftServer.server_url] at hacc
        rw [hacc] at this
        exact this
      have hs1 : s1.server_file_path = s.server_file_path := by
        have := withData_st_path extract_server_url t n s
        rw [MinecraftServer.server_url] at hacc
        rw [hacc] at this
        exact this
      rw [hacc] at he
      cases res with
      | ok u =>
          simp at he
          rcases he with he | he | he
          · rcases hevs with h | h <;> rw [h] at he <;> simp at he
            simp [he] at hep
          · simp [he] at hep
          · rw [he] at hep
            have : p = s1.server_file_path := by
              injection hep.symm
            rw [this, hs1]
      | error e2 =>
          simp at he
          rcases hevs with h | h <;> rw [h] at he <;> simp at he
          simp [he] at hep
  by_cases hdir : dirExists fs s.server_folder = true
  · refine ⟨fs, [], ?_, ?_, ?_, ?_, hwrites fs⟩
    · unfold check_and_create_folder
      rw [hdir]
      simp [pexists, hdir]
    · intro i hi
      rcases Nat.lt_or_ge i s.server_folder.length with hlt | hge
      · simp only [FS.wfB, Bool.and_eq_true, List.all_eq_true, decide_eq_true_eq] at hwf
        have hd : s.server_folder ∈ fs.dirs := by
          simpa [dirExists] using hdir
        refine hwf.1.1 _ hd _ ?_
        unfold parentsOf
        exact List.mem_map.mpr ⟨i, List.mem_range.mpr hlt, rfl⟩
      · have : i = s.server_folder.length := Nat.le_antisymm hi hge
        rw [this, List.take_length]
        simpa [dirExists] using hdir
    · intro e he
      simp at he
    · unfold MinecraftServer.download_server check_and_create_folder
      rw [hdir]
      simp [pexists, hdir]
  · have hmk : makedirs fs s.server_folder =
        .ok ⟨fs.dirs ++ (parentsOf s.server_folder ++ [s.server_folder]).filter
               (fun q => !dirExists fs q), fs.files⟩ := by
      unfold makedirs
      have hany : (parentsOf s.server_folder ++ [s.server_folder]).any
          (fun q => fileExists fs q) = false := by
        rw [List.any_eq_false]
        intro q hq
        simp [hnf q hq]
      rw [hany]
      simp
    have hchk : check_and_create_folder fs s.server_folder =
        (.ok ⟨fs.dirs ++ (parentsOf s.server_folder ++ [s.server_folder]).filter
                (fun q => !dirExists fs q), fs.files⟩, [.mkdir s.server_folder]) := by
      unfold check_and_create_folder
      rw [hmk]
      simp only [Bool.not_eq_true] at hdir
      simp [hdir]
    refine ⟨_, _, hchk, ?_, ?_, ?_, hwrites _⟩
    · intro i hi
      have hq : s.server_folder.take i ∈ parentsOf s.server_folder ++ [s.server_folder] := by
        rcases Nat.lt_or_ge i s.server_folder.length with hlt | hge
        · refine List.mem_append_left _ ?_
          unfold parentsOf
          exact List.mem_map.mpr ⟨i, List.mem_range.mpr hlt, rfl⟩
        · have : i = s.server_folder.length := Nat.le_antisymm hi hge
          rw [this, List.take_length]
          simp
      by_cases hin : s.server_folder.take i ∈ fs.dirs
      · exact List.mem_append_left _ hin
      · refine List.mem_append_right _ ?_
        refine List.mem_filter.mpr ⟨hq, ?_⟩
        simp [dirExists, hin]
    · intro e he
      simp at he
      exact he
    · unfold MinecraftServer.download_server
      rw [hchk]

/-! Lemmas about the versions table and manifest resolution. -/


theorem dmem_append (A B : Table) (k : Json) :
    dmem (A ++ B) k = (dmem A k || dmem B k) := by
  induction A with
  | nil => rfl
  | cons p r ih => by_cases h : p.1 = k <;> simp [dmem, h, ih]

theorem dfind_append_left (A B : Table) (k : Json) (h : dmem A k = true) :
    dfind (A ++ B) k = dfind A k := by
  induction A with
  | nil => simp [dmem] at h
  | cons p r ih =>
      by_cases hp : p.1 = k
      · simp [dfind, hp]
      · simp [dmem, hp] at h
        simp [dfind, hp, ih h]

theorem dfind_append_right (A B : Table) (k : Json) (h : dmem A k = false) :
    dfind (A ++ B) k = dfind B k := by
  induction A with
  | nil => rfl
  | cons p r ih =>
      simp only [dmem, Bool.or_eq_false_iff, decide_eq_false_iff_not] at h
      simp [dfind, h.1, ih h.2]

theorem dmem_eq_true_iff (T : Table) (k : Json) :
    dmem T k = true ↔ k ∈ T.map (fun p => p.1) := by
  induction T with
  | nil => simp [dmem]
  | cons p r ih =>
      by_cases h : p.1 = k
      · simp [dmem, h]
      · have h2 : ¬k = p.1 := fun hh => h hh.symm
        simp [dmem, h, h2, ih]

theorem entryTable_keys (m : Json) (f : String) :
    (entryTable m f).map (fun p => p.1) = entryIds m := by
  simp [entryTable, entryIds, rowOf]

/-- Lookup of an entry's id in the entry rows, under distinctness of ids. -/
theorem dfind_entryTable (f : String) (vs : List Json) (v : Json)
    (hv : v ∈ vs) (hnd : distinctKeysB (vs.map entryId) = true) :
    dfind (vs.map (rowOf f)) (entryId v) = some (rowOf f v).2 := by
  induction vs with
  | nil => simp at hv
  | cons u rest ih =>
      simp only [List.map_cons, distinctKeysB, Bool.and_eq_true, Bool.not_eq_true',
        decide_eq_false_iff_not] at hnd
      rcases List.mem_cons.mp hv with hveq | hvr
      · rw [hveq]
        simp [dfind, rowOf]
      · have hne : entryId u ≠ entryId v := by
          intro hcontra
          exact hnd.1 (hcontra ▸ List.mem_map.mpr ⟨v, hvr, rfl⟩)
        have : (rowOf f u).1 = entryId u := rfl
        simp [dfind, rowOf, hne, ih hvr hnd.2]

/-- On well-formed entries whose ids are pairwise distinct and absent from
the accumulator, the resolution loop appends one row per entry. -/
theorem build_entries_ok (f : String) : ∀ (vs : List Json) (acc : Table),
    (∀ v ∈ vs, entryWFB v = true) →
    (∀ v ∈ vs, dmem acc (entryId v) = false) →
    distinctKeysB (vs.map entryId) = true →
    build_entries vs (some f) acc = .ok (acc ++ vs.map (rowOf f)) := by
  intro vs
  induction vs with
  | nil => intro acc _ _ _; simp [build_entries]
  | cons v rest ih =>
      intro acc hwf hfresh hnd
      have hv := hwf v (List.mem_cons_self v rest)
      simp only [List.map_cons, distinctKeysB, Bool.and_eq_true, Bool.not_eq_true',
        decide_eq_false_iff_not] at hnd
      cases v with
      | null => simp [entryWFB] at hv
      | bool b => simp [entryWFB] at hv
      | num x => simp [entryWFB] at hv
      | str st => simp [entryWFB] at hv
      | arr xs => simp [entryWFB] at hv
      | obj fields =>
        cases hid : jlook fields "id" with
        | none => simp [entryWFB, hid] at hv
        | some idv =>
          cases hty : jlook fields "type" with
          | none => simp [entryWFB, hid, hty] at hv
          | some tyv =>
            cases hu : jlook fields "url" with
            | none => simp [entryWFB, hid, hty, hu] at hv
            | some uv =>
              cases idv with
              | null => simp [entryWFB, hid] at hv
              | bool b2 => simp [entryWFB, hid] at hv
              | num x2 => simp [entryWFB, hid] at hv
              | arr xs2 => simp [entryWFB, hid] at hv
              | obj fs2 => simp [entryWFB, hid] at hv
              | str sid =>
                  have hidv : entryId (.obj fields) = .str sid := by
                    simp [entryId, hid]
                  have hf0 : dmem acc (.str sid) = false := by
                    have := hfresh _ (List.mem_cons_self _ _)
                    rwa [hidv] at this
                  have hrow : rowOf f (.obj fields) =
                      (.str sid, some ⟨.str sid, tyv, uv, .null, pyPath f⟩) := by
                    simp [rowOf, entryId, entryType, entryUrl, hid, hty, hu]
                  have hstep : build_entries (Json.obj fields :: rest) (some f) acc =
                      build_entries rest (some f) (acc ++ [rowOf f (.obj fields)]) := by
                    rw [hrow]
                    simp [build_entries, pyIndex, hid, hty, hu, MinecraftServer.init,
                          pathTruthy, dinsert, hashableJson, hf0, Except.bind, bind]
                  rw [hstep]
                  have hfresh2 : ∀ u ∈ rest, dmem (acc ++ [rowOf f (.obj fields)])
                      (entryId u) = false := by
                    intro u hu2
                    rw [dmem_append]
                    have h1 := hfresh u (List.mem_cons_of_mem _ hu2)
                    have hne : ¬entryId (.obj fields) = entryId u := by
                      intro hcontra
                      exact hnd.1 (hcontra ▸ List.mem_map.mpr ⟨u, hu2, rfl⟩)
                    have h2 : dmem [rowOf f (.obj fields)] (entryId u) = false := by
                      simp [dmem, rowOf, hne]
                    rw [h1, h2]
                    rfl
                  rw [ih (acc ++ [rowOf f (.obj fields)])
                        (fun u hu2 => hwf u (List.mem_cons_of_mem _ hu2)) hfresh2 hnd.2]
                  simp

/-- When some entry (a dict) lacks one of the three required fields and all
entries up to it are dicts with hashable ids, the loop raises a `KeyError`
naming one of the three fields. -/
theorem build_entries_missing (f : String) : ∀ (vs : List Json) (acc : Table),
    (∀ v ∈ vs, isObjB v = true) →
    (∀ v ∈ vs, idHashableB v = true) →
    (∃ v ∈ vs, entryMissingB v = true) →
    ∃ k, build_entries vs (some f) acc = .error (.keyError k) ∧
      (k = "id" ∨ k = "type" ∨ k = "url") := by
  intro vs
  induction vs with
  | nil => intro acc _ _ hbad; simp at hbad
  | cons v rest ih =>
      intro acc hobj hhash hbad
      have hvobj := hobj v (List.mem_cons_self v rest)
      cases v with
      | null => simp [isObjB] at hvobj
      | bool b => simp [isObjB] at hvobj
      | num x => simp [isObjB] at hvobj
      | str st => simp [isObjB] at hvobj
      | arr xs => simp [isObjB] at hvobj
      | obj fields =>
        cases hid : jlook fields "id" with
        | none =>
            exact ⟨"id", by simp [build_entries, pyIndex, hid, Except.bind, bind],
                   Or.inl rfl⟩
        | some idv =>
          cases hty : jlook fields "type" with
          | none =>
              exact ⟨"type", by simp [build_entries, pyIndex, hid, hty, Except.bind, bind],
                     Or.inr (Or.inl rfl)⟩
          | some tyv =>
            cases hu : jlook fields "url" with
            | none =>
                exact ⟨"url", by simp [build_entries, pyIndex, hid, hty, hu,
                                       Except.bind, bind],
                       Or.inr (Or.inr rfl)⟩
            | some uv =>
                have hnotbad : entryMissingB (Json.obj fields) = false := by
                  simp [entryMissingB, hid, hty, hu]
                have hbad2 : ∃ u ∈ rest, entryMissingB u = true := by
                  rcases hbad with ⟨u, hu2, hb⟩
                  rcases List.mem_cons.mp hu2 with rfl | hur
                  · rw [hnotbad] at hb
                    cases hb
                  · exact ⟨u, hur, hb⟩
                have hhd : hashableJson idv = true := by
                  have := hhash _ (List.mem_cons_self _ _)
                  simpa [idHashableB, hid] using this
                have hstep : build_entries (Json.obj fields :: rest) (some f) acc =
                    build_entries rest (some f)
                      (if dmem acc idv then dreplace acc idv
                         (some ⟨idv, tyv, uv, .null, pyPath f⟩)
                       else acc ++ [(idv, some ⟨idv, tyv, uv, .null, pyPath f⟩)]) := by
                  simp [build_entries, pyIndex, hid, hty, hu, MinecraftServer.init,
                        pathTruthy, dinsert, hhd, Except.bind, bind]
                rw [hstep]
                exact ih _ (fun u hu2 => hobj u (List.mem_cons_of_mem _ hu2))
                        (fun u hu2 => hhash u (List.mem_cons_of_mem _ hu2)) hbad2

/-- On a valid manifest whose entry ids avoid the two alias keys,
resolution succeeds and returns exactly the entry rows followed by the two
alias rows. -/
theorem manifest_extract_meta_eq (m : Json) (f : String)
    (h1 : manifestWFB m = true) (h2 : noAliasIdsB m = true) :
    manifest_extract_meta m (some f) = .ok (fullTable m f) := by
  simp only [manifestWFB, Bool.and_eq_true] at h1
  obtain ⟨⟨⟨hshape, hentries⟩, hnd⟩, hlatest⟩ := h1
  have hids : ∀ i ∈ entryIds m,
      ¬i = Json.str "latest_release" ∧ ¬i = Json.str "latest_snapshot" := by
    intro i hi
    have := (List.all_eq_true.mp h2) i hi
    simp only [Bool.and_eq_true, Bool.not_eq_true', decide_eq_false_iff_not] at this
    exact this
  cases m with
  | null => simp [versionsShapeB] at hshape
  | bool b => simp [versionsShapeB] at hshape
  | num x => simp [versionsShapeB] at hshape
  | str st => simp [versionsShapeB] at hshape
  | arr xs => simp [versionsShapeB] at hshape
  | obj fields =>
    have hpg1 : pyGet (.obj fields) "versions" (.arr []) =
        .ok (.arr (versionsOf (.obj fields))) := by
      cases hv : jlook fields "versions" with
      | none => simp [pyGet, versionsOf, hv]
      | some j =>
          cases j <;> simp_all [pyGet, versionsOf, versionsShapeB]
    have hbuild : build_entries (versionsOf (.obj fields)) (some f) [] =
        .ok (entryTable (.obj fields) f) := by
      have := build_entries_ok f (versionsOf (.obj fields)) []
        (fun v hv => (List.all_eq_true.mp hentries) v hv)
        (fun v _ => rfl) hnd
      simpa [entryTable] using this
    have hpg2 : pyGet (.obj fields) "latest" (.obj []) =
        .ok (latestVal (.obj fields)) := by
      simp [pyGet, latestVal]
    cases hlv : latestVal (.obj fields) with
    | null => rw [latestWFB, hlv] at hlatest; cases hlatest
    | bool b => rw [latestWFB, hlv] at hlatest; cases hlatest
    | num x => rw [latestWFB, hlv] at hlatest; cases hlatest
    | str st => rw [latestWFB, hlv] at hlatest; cases hlatest
    | arr xs => rw [latestWFB, hlv] at hlatest; cases hlatest
    | obj lf =>
      rw [latestWFB, hlv] at hlatest
      simp only [Bool.and_eq_true] at hlatest
      have hrel : relPtr (.obj fields) = (jlook lf "release").getD .null := by
        rw [relPtr, hlv]
      have hsnap : snapPtr (.obj fields) = (jlook lf "snapshot").getD .null := by
        rw [snapPtr, hlv]
      have hrelh : hashableJson (relPtr (.obj fields)) = true := by
        rw [hrel]
        cases hr : jlook lf "release" with
        | none => rfl
        | some j => rw [hr] at hlatest; cases j <;> simp_all [ptrOKB, hashableJson]
      have hsnaph : hashableJson (snapPtr (.obj fields)) = true := by
        rw [hsnap]
        cases hr : jlook lf "snapshot" with
        | none => rfl
        | some j => rw [hr] at hlatest; cases j <;> simp_all [ptrOKB, hashableJson]
      have hprel : pyGet (latestVal (.obj fields)) "release" .null =
          .ok (relPtr (.obj fields)) := by
        rw [hlv, hrel]; rfl
      have hpsnap : pyGet (latestVal (.obj fields)) "snapshot" .null =
          .ok (snapPtr (.obj fields)) := by
        rw [hlv, hsnap]; rfl
      have hget1 : dgetD (entryTable (.obj fields) f) (relPtr (.obj fields)) =
          .ok (relVal (.obj fields) f) := by
        simp [dgetD, hrelh, relVal]
      have hmem1 : dmem (entryTable (.obj fields) f) (.str "latest_release") = false := by
        rw [Bool.eq_false_iff]
        intro hcontra
        have := (dmem_eq_true_iff _ _).mp hcontra
        rw [entryTable_keys] at this
        exact (hids _ this).1 rfl
      have hmem1s : dmem (entryTable (.obj fields) f) (.str "latest_snapshot") = false := by
        rw [Bool.eq_false_iff]
        intro hcontra
        have := (dmem_eq_true_iff _ _).mp hcontra
        rw [entryTable_keys] at this
        exact (hids _ this).2 rfl
      have hins1 : dinsert (entryTable (.obj fields) f) (.str "latest_release")
          (relVal (.obj fields) f) = .ok (tableAfterRel (.obj fields) f) := by
        simp [dinsert, hashableJson, hmem1, tableAfterRel]
      have hget2 : dgetD (tableAfterRel (.obj fields) f) (snapPtr (.obj fields)) =
          .ok (snapVal (.obj fields) f) := by
        simp [dgetD, hsnaph, snapVal]
      have hmem2 : dmem (tableAfterRel (.obj fields) f) (.str "latest_snapshot") = false := by
        rw [tableAfterRel, dmem_append, hmem1s]
        simp [dmem]
      have hins2 : dinsert (tableAfterRel (.obj fields) f) (.str "latest_snapshot")
          (snapVal (.obj fields) f) = .ok (fullTable (.obj fields) f) := by
        simp [dinsert, hashableJson, hmem2, fullTable]
      unfold manifest_extract_meta
      simp only [hpg1, pyIter, hbuild, hpg2, hprel, hget1, hins1, hpsnap, hget2, hins2,
        Except.bind, bind]

theorem dfind_none_of_dmem_false (T : Table) (k : Json) (h : dmem T k = false) :
    dfind T k = none := by
  induction T with
  | nil => rfl
  | cons p r ih =>
      simp only [dmem, Bool.or_eq_false_iff, decide_eq_false_iff_not] at h
      simp [dfind, h.1, ih h.2]

/-- No alias key occurs among the entry rows of an alias-free manifest. -/
theorem entryTable_no_alias (m : Json) (f : String) (h2 : noAliasIdsB m = true) :
    dmem (entryTable m f) (.str "latest_release") = false ∧
    dmem (entryTable m f) (.str "latest_snapshot") = false := by
  have hids : ∀ i ∈ entryIds m,
      ¬i = Json.str "latest_release" ∧ ¬i = Json.str "latest_snapshot" := by
    intro i hi
    have := (List.all_eq_true.mp h2) i hi
    simp only [Bool.and_eq_true, Bool.not_eq_true', decide_eq_false_iff_not] at this
    exact this
  constructor <;>
    · rw [Bool.eq_false_iff]
      intro hcontra
      have := (dmem_eq_true_iff _ _).mp hcontra
      rw [entryTable_keys] at this
      first
        | exact (hids _ this).1 rfl
        | exact (hids _ this).2 rfl

/-- The `latest_release` key of the final table stores `relVal`. -/
theorem dfind_fullTable_rel (m : Json) (f : String) (h2 : noAliasIdsB m = true) :
    dfind (fullTable m f) (.str "latest_release") = some (relVal m f) := by
  have hmem := (entryTable_no_alias m f h2).1
  rw [fullTable, dfind_append_left, tableAfterRel, dfind_append_right _ _ _ hmem]
  · simp [dfind]
  · rw [tableAfterRel, dmem_append, hmem]
    simp [dmem]

/-- The `latest_snapshot` key of the final table stores `snapVal`. -/
theorem dfind_fullTable_snap (m : Json) (f : String) (h2 : noAliasIdsB m = true) :
    dfind (fullTable m f) (.str "latest_snapshot") = some (snapVal m f) := by
  have hmem := (entryTable_no_alias m f h2).2
  rw [fullTable, dfind_append_right]
  · simp [dfind]
  · rw [tableAfterRel, dmem_append, hmem]
    simp [dmem]

/-- Lookup of an entry-row key in the final table reaches the entry rows. -/
theorem dfind_fullTable_entry (m : Json) (f : String) (k : Json)
    (hk : dmem (entryTable m f) k = true) :
    dfind (fullTable m f) k = dfind (entryTable m f) k := by
  rw [fullTable, dfind_append_left, tableAfterRel, dfind_append_left _ _ _ hk]
  rw [tableAfterRel, dmem_append, hk]
  rfl

/-- C1 (amended): on a valid root manifest with N entries whose pairwise
distinct ids avoid the two alias key strings, resolution returns a table of
exactly N + 2 keys, and every entry's id is a key mapping to a
VersionArtifact whose id equals that entry's id.  (Without the alias
proviso the claim fails: an entry id equal to `latest_release` or
`latest_snapshot` is overwritten by alias resolution.) -/
theorem claim_C1 (m : Json) (f : String)
    (h1 : manifestWFB m = true) (h2 : noAliasIdsB m = true) :
    ∃ T, manifest_extract_meta m (some f) = .ok T ∧
      T.length = (versionsOf m).length + 2 ∧
      ∀ v ∈ versionsOf m, ∃ srv,
        dfind T (entryId v) = some (some srv) ∧ srv.version = entryId v := by
  refine ⟨fullTable m f, manifest_extract_meta_eq m f h1 h2, ?_, ?_⟩
  · simp [fullTable, tableAfterRel, entryTable]
  · intro v hv
    have hnd : distinctKeysB ((versionsOf m).map entryId) = true := by
      simp only [manifestWFB, Bool.and_eq_true] at h1
      exact h1.1.2
    have hmemE : dmem (entryTable m f) (entryId v) = true := by
      rw [dmem_eq_true_iff, entryTable_keys]
      exact List.mem_map.mpr ⟨v, hv, rfl⟩
    refine ⟨⟨entryId v, entryType v, entryUrl v, .null, pyPath f⟩, ?_, rfl⟩
    rw [dfind_fullTable_entry m f _ hmemE]
    exact dfind_entryTable f (versionsOf m) v hv hnd

/-- C1 (witness): the spec's example manifest. -/
theorem claim_C1_witness :
    ∃ T, manifest_extract_meta manifestEx (some "sf") = .ok T ∧
      T.length = (versionsOf manifestEx).length + 2 ∧
      ∀ v ∈ versionsOf manifestEx, ∃ srv,
        dfind T (entryId v) = some (some srv) ∧ srv.version = entryId v :=
  claim_C1 manifestEx "sf" (by decide) (by decide)

/-- C1 (counterexample to the claim as stated): `manifestAliasId` is a valid
one-entry manifest whose entry id is the string `latest_release`; the
resulting table maps that id to `None` — not to a VersionArtifact with that
id — because the alias assignment overwrites the entry's row. -/
theorem claim_C1_cex :
    manifestWFB manifestAliasId = true ∧
    entryIds manifestAliasId = [.str "latest_release"] ∧
    manifest_extract_meta manifestAliasId (some "sf") =
      .ok [(.str "latest_release", none), (.str "latest_snapshot", none)] ∧
    ∀ srv, dfind [((.str "latest_release" : Json), (none : Option MinecraftServer)),
                  (.str "latest_snapshot", none)] (.str "latest_release") ≠
           some (some srv) := by
  refine ⟨by decide, by decide, by decide, ?_⟩
  intro srv h
  simp [dfind] at h

/-- C2 (amended): on a valid root manifest with alias-free distinct ids and
a snapshot pointer different from the literal string `latest_release`, each
alias key maps to `None` when its pointer is absent (null) or names no
entry id, and otherwise maps to exactly the value the table holds under the
pointed-to id, a VersionArtifact.  (Without the snapshot proviso the claim
fails: the snapshot lookup runs on the table that already contains the
`latest_release` key.) -/
theorem claim_C2 (m : Json) (f : String)
    (h1 : manifestWFB m = true) (h2 : noAliasIdsB m = true)
    (h3 : snapPtr m ≠ .str "latest_release") :
    ∃ T, manifest_extract_meta m (some f) = .ok T ∧
      (relPtr m ∉ entryIds m → dfind T (.str "latest_release") = some none) ∧
      (relPtr m ∈ entryIds m →
        dfind T (.str "latest_release") = dfind T (relPtr m) ∧
        ∃ srv, dfind T (relPtr m) = some (some srv)) ∧
      (snapPtr m ∉ entryIds m → dfind T (.str "latest_snapshot") = some none) ∧
      (snapPtr m ∈ entryIds m →
        dfind T (.str "latest_snapshot") = dfind T (snapPtr m) ∧
        ∃ srv, dfind T (snapPtr m) = some (some srv)) := by
  have hnd : distinctKeysB ((versionsOf m).map entryId) = true := by
    simp only [manifestWFB, Bool.and_eq_true] at h1
    exact h1.1.2
  refine ⟨fullTable m f, manifest_extract_meta_eq m f h1 h2, ?_, ?_, ?_, ?_⟩
  · intro habs
    have hmem : dmem (entryTable m f) (relPtr m) = false := by
      rw [Bool.eq_false_iff]
      intro hcontra
      exact habs (entryTable_keys m f ▸ (dmem_eq_true_iff _ _).mp hcontra)
    rw [dfind_fullTable_rel m f h2, relVal, dfind_none_of_dmem_false _ _ hmem]
    rfl
  · intro hin
    obtain ⟨v, hv, hvid⟩ := List.mem_map.mp hin
    have hmem : dmem (entryTable m f) (relPtr m) = true := by
      rw [dmem_eq_true_iff, entryTable_keys]
      exact hin
    have hfind : dfind (entryTable m f) (relPtr m) = some (rowOf f v).2 := by
      rw [← hvid]
      exact dfind_entryTable f (versionsOf m) v hv hnd
    constructor
    · rw [dfind_fullTable_rel m f h2, dfind_fullTable_entry m f _ hmem, relVal, hfind]
      rfl
    · refine ⟨⟨entryId v, entryType v, entryUrl v, .null, pyPath f⟩, ?_⟩
      rw [dfind_fullTable_entry m f _ hmem, hfind]
      rfl
  · intro habs
    have hmem : dmem (entryTable m f) (snapPtr m) = false := by
      rw [Bool.eq_false_iff]
      intro hcontra
      exact habs (entryTable_keys m f ▸ (dmem_eq_true_iff _ _).mp hcontra)
    rw [dfind_fullTable_snap m f h2, snapVal, tableAfterRel,
        dfind_append_right _ _ _ hmem]
    have hne : ¬(Json.str "latest_release") = snapPtr m := fun hh => h3 hh.symm
    simp [dfind, hne]
  · intro hin
    obtain ⟨v, hv, hvid⟩ := List.mem_map.mp hin
    have hmem : dmem (entryTable m f) (snapPtr m) = true := by
      rw [dmem_eq_true_iff, entryTable_keys]
      exact hin
    have hfind : dfind (entryTable m f) (snapPtr m) = some (rowOf f v).2 := by
      rw [← hvid]
      exact dfind_entryTable f (versionsOf m) v hv hnd
    constructor
    · rw [dfind_fullTable_snap m f h2, dfind_fullTable_entry m f _ hmem, snapVal,
          tableAfterRel, dfind_append_left _ _ _ hmem, hfind]
      rfl
    · refine ⟨⟨entryId v, entryType v, entryUrl v, .null, pyPath f⟩, ?_⟩
      rw [dfind_fullTable_entry m f _ hmem, hfind]
      rfl

/-- C2 (witness): the spec's example manifest, whose two pointers both name
the listed entry `1.20.4`. -/
theorem claim_C2_witness :
    ∃ T, manifest_extract_meta manifestEx (some "sf") = .ok T ∧
      (relPtr manifestEx ∉ entryIds manifestEx →
        dfind T (.str "latest_release") = some none) ∧
      (relPtr manifestEx ∈ entryIds manifestEx →
        dfind T (.str "latest_release") = dfind T (relPtr manifestEx) ∧
        ∃ srv, dfind T (relPtr manifestEx) = some (some srv)) ∧
      (snapPtr manifestEx ∉ entryIds manifestEx →
        dfind T (.str "latest_snapshot") = some none) ∧
      (snapPtr manifestEx ∈ entryIds manifestEx →
        dfind T (.str "latest_snapshot") = dfind T (snapPtr manifestEx) ∧
        ∃ srv, dfind T (snapPtr manifestEx) = some (some srv)) :=
  claim_C2 manifestEx "sf" (by decide) (by decide) (by decide)

/-- C2 (counterexample to the claim as stated): in `manifestSnapAlias` the
snapshot pointer is the string `latest_release`, which is absent from the
entry ids, yet `latest_snapshot` maps to the artifact of entry `a` rather
than to `None`, because line 191 looks the pointer up in a table that
already contains the `latest_release` alias key. -/
theorem claim_C2_cex :
    manifestWFB manifestSnapAlias = true ∧
    snapPtr manifestSnapAlias = .str "latest_release" ∧
    snapPtr manifestSnapAlias ∉ entryIds manifestSnapAlias ∧
    manifest_extract_meta manifestSnapAlias (some "sf") =
      .ok [(.str "a", some srvA), (.str "latest_release", some srvA),
           (.str "latest_snapshot", some srvA)] ∧
    dfind [((.str "a" : Json), some srvA), (.str "latest_release", some srvA),
           (.str "latest_snapshot", some srvA)] (.str "latest_snapshot") =
      some (some srvA) := by
  refine ⟨by decide, by decide, by decide, by decide, by decide⟩

/-- C9: a root manifest (a dict with a well-shaped `latest` block) without
any `versions` key resolves without error to the table containing only the
two alias keys, both mapping to `None`. -/
theorem claim_C9 (m : Json) (f : String)
    (hm : noVersionsB m = true) (hl : latestWFB m = true) :
    manifest_extract_meta m (some f) =
      .ok [(.str "latest_release", none), (.str "latest_snapshot", none)] := by
  have hvempty : versionsOf m = [] := by
    cases m with
    | obj fields =>
        simp only [noVersionsB, Option.isNone_iff_eq_none] at hm
        simp [versionsOf, hm]
    | null => simp [noVersionsB] at hm
    | bool b => simp [noVersionsB] at hm
    | num x => simp [noVersionsB] at hm
    | str st => simp [noVersionsB] at hm
    | arr xs => simp [noVersionsB] at hm
  have h1 : manifestWFB m = true := by
    rw [manifestWFB]
    have hshape : versionsShapeB m = true := by
      cases m with
      | obj fields =>
          simp only [noVersionsB, Option.isNone_iff_eq_none] at hm
          simp [versionsShapeB, hm]
      | null => simp [noVersionsB] at hm
      | bool b => simp [noVersionsB] at hm
      | num x => simp [noVersionsB] at hm
      | str st => simp [noVersionsB] at hm
      | arr xs => simp [noVersionsB] at hm
    simp [hshape, hvempty, entryIds, distinctKeysB, hl]
  have h2 : noAliasIdsB m = true := by
    simp [noAliasIdsB, entryIds, hvempty]
  rw [manifest_extract_meta_eq m f h1 h2]
  have hE : entryTable m f = [] := by simp [entryTable, hvempty]
  have hrelv : relVal m f = none := by simp [relVal, hE, dfind]
  have hsv : snapVal m f = none := by
    rw [snapVal, tableAfterRel, hE, hrelv]
    by_cases h : (Json.str "latest_release") = snapPtr m <;> simp [dfind, h]
  rw [fullTable, tableAfterRel, hE, hrelv, hsv]
  rfl


/-- C9 (witness): the versionless manifest resolves to the two-alias table. -/
theorem claim_C9_witness :
    manifest_extract_meta manifestNoVersions (some "sf") =
      .ok [(.str "latest_release", none), (.str "latest_snapshot", none)] :=
  claim_C9 manifestNoVersions "sf" (by decide) (by decide)

/-- C8: when some `versions` entry is a dict lacking `id`, `type` or `url`
(the other entries being dicts with hashable ids), resolution raises a
`KeyError` naming one of the three fields instead of building an artifact
with a default for the missing field. -/
theorem claim_C8 (m : Json) (f : String)
    (hp : versionsPresentB m = true)
    (hobj : ∀ v ∈ versionsOf m, isObjB v = true)
    (hhash : ∀ v ∈ versionsOf m, idHashableB v = true)
    (hbad : ∃ v ∈ versionsOf m, entryMissingB v = true) :
    ∃ k, manifest_extract_meta m (some f) = .error (.keyError k) ∧
      (k = "id" ∨ k = "type" ∨ k = "url") := by
  cases m with
  | null => simp [versionsPresentB] at hp
  | bool b => simp [versionsPresentB] at hp
  | num x => simp [versionsPresentB] at hp
  | str st => simp [versionsPresentB] at hp
  | arr xs => simp [versionsPresentB] at hp
  | obj fields =>
    cases hv : jlook fields "versions" with
    | none => rw [versionsPresentB, hv] at hp; cases hp
    | some j =>
      cases j with
      | arr xs =>
          have hvs : versionsOf (.obj fields) = xs := by simp [versionsOf, hv]
          rw [hvs] at hobj hhash hbad
          obtain ⟨k, hk, hor⟩ := build_entries_missing f xs [] hobj hhash hbad
          refine ⟨k, ?_, hor⟩
          unfold manifest_extract_meta
          simp [pyGet, hv, pyIter, hk, Except.bind, bind]
      | null => rw [versionsPresentB, hv] at hp; cases hp
      | bool b => rw [versionsPresentB, hv] at hp; cases hp
      | num x => rw [versionsPresentB, hv] at hp; cases hp
      | str st => rw [versionsPresentB, hv] at hp; cases hp
      | obj fs2 => rw [versionsPresentB, hv] at hp; cases hp


/-- C8 (witness): resolving the manifest with the url-less entry. -/
theorem claim_C8_witness :
    ∃ k, manifest_extract_meta manifestMissingUrl (some "sf") = .error (.keyError k) ∧
      (k = "id" ∨ k = "type" ∨ k = "url") :=
  claim_C8 manifestMissingUrl "sf" (by decide) (by decide) (by decide) (by decide)

/-- C6 (witness): an empty filesystem and the artifact `sEx`, whose folder
`sf` does not yet exist. -/
theorem claim_C6_witness :
    ∃ fs1 ev,
      check_and_create_folder ⟨[[]], []⟩ sEx.server_folder = (.ok fs1, ev) ∧
      (∀ i ≤ sEx.server_folder.length, sEx.server_folder.take i ∈ fs1.dirs) ∧
      (∀ e ∈ ev, e = Ev.mkdir sEx.server_folder) ∧
      sEx.download_server tEx (fun _ => []) 0 ⟨[[]], []⟩ =
        ⟨(download_rest tEx (fun _ => []) 0 sEx fs1).res,
         (download_rest tEx (fun _ => []) 0 sEx fs1).st,
         (download_rest tEx (fun _ => []) 0 sEx fs1).n,
         (download_rest tEx (fun _ => []) 0 sEx fs1).fs,
         ev ++ (download_rest tEx (fun _ => []) 0 sEx fs1).trace⟩ ∧
      (∀ e ∈ (download_rest tEx (fun _ => []) 0 sEx fs1).trace, ∀ p, e = Ev.fwrite p →
         p = sEx.server_file_path) :=
  claim_C6 tEx (fun _ => []) 0 sEx ⟨[[]], []⟩ (by decide) (by decide)
